import Mathlib

/-!
# Verification of `MindSpider/BroadTopicExtraction/topic_extractor.py`

A shallow embedding of the `TopicExtractor` pipeline: prompt-line rendering,
tiered response parsing (strict JSON → heuristic line scan → failure),
keyword filtering, fallback keyword extraction and the orchestrating
`extract_keywords_and_summary` operation.

Modelling conventions:
* Python `str` is Lean `String` (a list of unicode code points, matching
  Python's code-point based `len` and indexing).
* Python exceptions are modelled with `Except PyError`; a `try/except`
  block becomes a `match` on the embedded result.
* The OpenAI completion call is external; its outcome is a parameter
  `llm : Except PyError String` of the pipeline (`.error` = the client
  raised, `.ok` = the returned message content).
* Scenario configuration is external read-only data; the parts the code
  reads (`keyword_filters`) are passed in as an `Option FilterRules`
  parameter, and the regex engine used on configured patterns is an
  abstract parameter `reSearch : String → String → Bool`.
* `json.loads` is modelled by `jsonLoads` below: a recursive-descent
  parser for objects, arrays, strings (with the common escapes), integer
  numbers, booleans and null.  Fractional/exponent numbers are not
  modelled; no analysed input contains them, and every theorem quantified
  over raw text holds for either outcome of the decode.
-/

namespace TopicExtractor

/-! ## Python string primitives -/

/-- Characters Python's `str.strip()` removes (the ASCII whitespace set;
Python also strips some rarer unicode spaces, which no analysed string
contains). -/
def isPyWs (c : Char) : Bool :=
  c = ' ' || c = '\t' || c = '\n' || c = '\r' || c = '\x0b' || c = '\x0c'

def dropLeadWs : List Char → List Char
  | [] => []
  | c :: cs => if isPyWs c then dropLeadWs cs else c :: cs

/-- Python `str.strip()`. -/
def pyStrip (s : String) : String :=
  String.mk ((dropLeadWs (dropLeadWs s.data.reverse).reverse))

/-- Python `str.lower()` (ASCII case folding; identity on CJK). -/
def pyLower (s : String) : String :=
  String.mk (s.data.map Char.toLower)

/-- Index of the first occurrence of `needle` in `hay`, if any. -/
def findSubIdx (needle : List Char) : List Char → Option Nat
  | [] => if needle = [] then some 0 else none
  | c :: cs =>
    if needle.isPrefixOf (c :: cs) then some 0
    else (findSubIdx needle cs).map (· + 1)

/-- Python `sub in s` substring containment. -/
def containsSub (s sub : String) : Bool :=
  (findSubIdx sub.data s.data).isSome

/-- `str.split(c)`: split on every occurrence of one character, keeping
empty fragments (the result is always non-empty). -/
def splitCharsKeep (p : Char → Bool) : List Char → List (List Char)
  | [] => [[]]
  | c :: cs =>
    if p c then [] :: splitCharsKeep p cs
    else
      match splitCharsKeep p cs with
      | [] => [[c]]
      | t :: ts => (c :: t) :: ts

def splitOnChar (c : Char) (s : String) : List String :=
  (splitCharsKeep (· = c) s.data).map String.mk

def splitOnSet (cls : List Char) (s : String) : List String :=
  (splitCharsKeep (cls.contains ·) s.data).map String.mk

/-- Python `str.split()` with no argument: split on whitespace runs,
dropping empty fragments. -/
def pySplitWs (s : String) : List String :=
  ((splitCharsKeep isPyWs s.data).filter (· ≠ [])).map String.mk

/-- `s.split(c)[-1]`: the fragment after the last occurrence of `c`. -/
def lastSplit (c : Char) (s : String) : String :=
  (splitOnChar c s).getLastD s

/-- `re.sub('[cls]', '', s)`: delete every character of a class. -/
def removeClass (cls : List Char) (s : String) : String :=
  String.mk (s.data.filter (fun c => !(cls.contains c)))

/-- `re.sub('[cls]', ' ', s)`: replace every character of a class by a
space. -/
def blankClass (cls : List Char) (s : String) : String :=
  String.mk (s.data.map (fun c => if cls.contains c then ' ' else c))

/-! ## JSON values and `json.loads` -/

inductive JsonValue where
  | str (s : String)
  | num (n : Int)
  | bool (b : Bool)
  | null
  | arr (xs : List JsonValue)
  | obj (kvs : List (String × JsonValue))
  deriving Repr

/-- JSON-insignificant whitespace (what Python's `json` module skips). -/
def jskipWs : List Char → List Char
  | [] => []
  | c :: cs =>
    if c = ' ' ∨ c = '\t' ∨ c = '\n' ∨ c = '\r' then jskipWs cs else c :: cs

def hexVal (c : Char) : Option Nat :=
  if '0' ≤ c ∧ c ≤ '9' then some (c.toNat - '0'.toNat)
  else if 'a' ≤ c ∧ c ≤ 'f' then some (c.toNat - 'a'.toNat + 10)
  else if 'A' ≤ c ∧ c ≤ 'F' then some (c.toNat - 'A'.toNat + 10)
  else none

def jesc (c : Char) : Option Char :=
  if c = '"' then some '"'
  else if c = '\\' then some '\\'
  else if c = '/' then some '/'
  else if c = 'n' then some '\n'
  else if c = 't' then some '\t'
  else if c = 'r' then some '\r'
  else if c = 'b' then some (Char.ofNat 8)
  else if c = 'f' then some (Char.ofNat 12)
  else none

/-- Body of a JSON string literal, after the opening quote.  Returns the
decoded characters and the input following the closing quote. -/
def jstring : List Char → Option (List Char × List Char)
  | [] => none
  | '"' :: rest => some ([], rest)
  | '\\' :: 'u' :: a :: b :: c :: d :: rest =>
    match hexVal a, hexVal b, hexVal c, hexVal d with
    | some x1, some x2, some x3, some x4 =>
      (jstring rest).map fun r => (Char.ofNat (((x1 * 16 + x2) * 16 + x3) * 16 + x4) :: r.1, r.2)
    | _, _, _, _ => none
  | '\\' :: e :: rest =>
    match jesc e with
    | some ch => (jstring rest).map fun r => (ch :: r.1, r.2)
    | none => none
  | c :: rest => (jstring rest).map fun r => (c :: r.1, r.2)

def jdigits : List Char → List Char × List Char
  | [] => ([], [])
  | c :: cs =>
    if c.isDigit then
      let r := jdigits cs
      (c :: r.1, r.2)
    else ([], c :: cs)

def digitsToNat (ds : List Char) : Nat :=
  ds.foldl (fun a c => a * 10 + (c.toNat - '0'.toNat)) 0

/-- Python `dict` assignment while building an object: a repeated key
replaces the stored value in place, otherwise the pair is appended. -/
def insertKV (kvs : List (String × JsonValue)) (k : String) (v : JsonValue) :
    List (String × JsonValue) :=
  if kvs.any (fun kv => kv.1 = k) then
    kvs.map (fun kv => if kv.1 = k then (k, v) else kv)
  else kvs ++ [(k, v)]

mutual

def jvalue : Nat → List Char → Option (JsonValue × List Char)
  | 0, _ => none
  | fuel + 1, cs =>
    match jskipWs cs with
    | '"' :: rest => (jstring rest).map fun r => (JsonValue.str (String.mk r.1), r.2)
    | 't' :: 'r' :: 'u' :: 'e' :: rest => some (JsonValue.bool true, rest)
    | 'f' :: 'a' :: 'l' :: 's' :: 'e' :: rest => some (JsonValue.bool false, rest)
    | 'n' :: 'u' :: 'l' :: 'l' :: rest => some (JsonValue.null, rest)
    | '[' :: rest => jarray fuel (jskipWs rest)
    | '{' :: rest => jobject fuel (jskipWs rest)
    | '-' :: rest =>
      match jdigits rest with
      | ([], _) => none
      | (ds, rest2) => some (JsonValue.num (-(digitsToNat ds : Int)), rest2)
    | c :: rest =>
      if c.isDigit then
        let r := jdigits (c :: rest)
        some (JsonValue.num (digitsToNat r.1), r.2)
      else none
    | [] => none

def jarray : Nat → List Char → Option (JsonValue × List Char)
  | _, ']' :: rest => some (JsonValue.arr [], rest)
  | 0, _ => none
  | fuel + 1, cs =>
    match jvalue fuel cs with
    | none => none
    | some (v, rest) => jarrayTail fuel [v] rest

def jarrayTail : Nat → List JsonValue → List Char → Option (JsonValue × List Char)
  | 0, _, _ => none
  | fuel + 1, acc, cs =>
    match jskipWs cs with
    | ',' :: rest =>
      match jvalue fuel rest with
      | some (v, rest2) => jarrayTail fuel (acc ++ [v]) rest2
      | none => none
    | ']' :: rest => some (JsonValue.arr acc, rest)
    | _ => none

def jobject : Nat → List Char → Option (JsonValue × List Char)
  | _, '}' :: rest => some (JsonValue.obj [], rest)
  | 0, _ => none
  | fuel + 1, cs => jmembers fuel [] cs

def jmembers : Nat → List (String × JsonValue) → List Char →
    Option (JsonValue × List Char)
  | 0, _, _ => none
  | fuel + 1, acc, cs =>
    match jskipWs cs with
    | '"' :: rest =>
      match jstring rest with
      | none => none
      | some (kcs, rest2) =>
        match jskipWs rest2 with
        | ':' :: rest3 =>
          match jvalue fuel rest3 with
          | none => none
          | some (v, rest4) =>
            match jskipWs rest4 with
            | ',' :: rest5 => jmembers fuel (insertKV acc (String.mk kcs) v) rest5
            | '}' :: rest5 => some (JsonValue.obj (insertKV acc (String.mk kcs) v), rest5)
            | _ => none
        | _ => none
    | _ => none

end

/-- Model of Python `json.loads`: parse one value, reject trailing
content.  Returns `none` where `json.loads` raises `JSONDecodeError`. -/
def jsonLoads (s : String) : Option JsonValue :=
  match jvalue (s.data.length + 1) s.data with
  | some (v, rest) => if jskipWs rest = [] then some v else none
  | none => none

/-! ## Python runtime oddments -/

/-- The exceptions the embedded code can raise.  `nameError` is raised by
evaluating an unbound name, `jsonDecodeError` by `json.loads`, and
`otherError` stands for every remaining `Exception` subclass
(`AttributeError`, `TypeError`, transport errors of the OpenAI client, …). -/
inductive PyError where
  | nameError
  | jsonDecodeError
  | otherError (msg : String)
  deriving Repr, DecidableEq

/-- Python `str()` on a JSON-decoded value.  On nested containers Python
renders their repr; its exact spelling never matters to the properties
proved below (every keyword derived from it passes through the same
cleaning), so the derived `Repr` rendering stands in for it. -/
def pyStr (v : JsonValue) : String :=
  match v with
  | .str s => s
  | .num n => toString n
  | .bool true => "True"
  | .bool false => "False"
  | .null => "None"
  | v => toString (repr v)

/-- `dict.get` on a decoded JSON object. -/
def pyGet (kvs : List (String × JsonValue)) (k : String) : Option JsonValue :=
  (kvs.find? (fun kv => kv.1 = k)).map (·.2)

/-- Python `for x in v` over a JSON-decoded value: arrays yield their
elements, strings their characters, dicts their keys; the rest raise
`TypeError`. -/
def iterElems : JsonValue → Except PyError (List JsonValue)
  | .arr xs => .ok xs
  | .str s => .ok (s.data.map fun c => JsonValue.str (String.mk [c]))
  | .obj kvs => .ok (kvs.map fun kv => JsonValue.str kv.1)
  | _ => .error (.otherError "TypeError: not iterable")

/-! ## Shared loop shapes

Several loops in the source append an element after a guard that includes
`x not in accumulated`; `pyAppendLoop` is that loop shape, and
`dedupKeepFirst` is plain first-occurrence deduplication used to state
specifications. -/

def pyAppendLoop (good : String → Bool) (acc : List String) :
    List String → List String
  | [] => acc
  | w :: ws =>
    if good w ∧ w ∉ acc then pyAppendLoop good (acc ++ [w]) ws
    else pyAppendLoop good acc ws

def dedupKeepFirst (acc : List String) : List String → List String
  | [] => acc
  | w :: ws =>
    if w ∉ acc then dedupKeepFirst (acc ++ [w]) ws
    else dedupKeepFirst acc ws

/-- Python list slicing `xs[:n]` for an arbitrary integer bound. -/
def pySlice {α : Type} (xs : List α) (n : Int) : List α :=
  if 0 ≤ n then xs.take n.toNat else xs.take (xs.length - (-n).toNat)

/-! ## Data model -/

/-- A news item as consumed by the extractor: a Python dict whose keys
may be absent; present values are strings (the well-typed inputs of the
spec).  `none` models an absent key. -/
structure NewsItem where
  title : Option String
  source_platform : Option String
  source : Option String
  deriving Repr, DecidableEq

/-- The scenario's `crawler.topic_extraction.keyword_filters` mapping.
`none` on a length field models an absent key (the code reads it with
`filters.get('min_length', 2)` / `filters.get('max_length', 50)`). -/
structure FilterRules where
  include_patterns : List String
  exclude_patterns : List String
  min_length : Option Nat
  max_length : Option Nat
  deriving Repr

/-! ## `_parse_analysis_result` — strict JSON tier -/

/-- The `re.search` over `'```json\s*(.*?)\s*```'` with `re.DOTALL` on
lines 192–194: the content between the first occurrence of `` ```json ``
and the next `` ``` `` after it, with surrounding whitespace absorbed by
the `\s*` parts.  (A lazy group bounded by a literal makes the first
closing fence the match end; if the first opening fence has no closing
fence, no later start can match either, since a later `` ```json `` would
itself contain a closing fence.) -/
def extractJsonBlock (s : String) : Option String :=
  match findSubIdx "```json".data s.data with
  | none => none
  | some i =>
    let rest := s.data.drop (i + 7)
    match findSubIdx "```".data rest with
    | none => none
    | some j => some (pyStrip (String.mk (rest.take j)))

def shortSummaryPlaceholder : String :=
  "今日热点新闻涵盖多个领域，反映了当前社会的多元化关注点。"

def analysisFailureSummary : String := "分析结果处理失败，请稍后重试。"

/-- The guard of line 209: `if keyword and len(keyword) > 1 and …`
(the membership conjunct is handled by `pyAppendLoop`). -/
def cleanGood (k : String) : Bool :=
  !(k = "") && decide (1 < k.length)

/-- Lines 212–216: validation of `data.get('summary', '')`, evaluated
per the shape of the decoded value.  `not summary` is Python falsiness:
a falsy value of any type is replaced by the placeholder before
`summary.strip()` is ever called; a truthy string is kept unless shorter
than 10 characters after strip; calling `.strip()` on a truthy
non-string raises `AttributeError`. -/
def summaryValue : JsonValue → Except PyError String
  | .str s =>
    .ok (if s = "" ∨ (pyStrip s).length < 10 then shortSummaryPlaceholder else s)
  | .num n =>
    if n = 0 then .ok shortSummaryPlaceholder
    else .error (.otherError "AttributeError: strip")
  | .bool b =>
    if b then .error (.otherError "AttributeError: strip")
    else .ok shortSummaryPlaceholder
  | .null => .ok shortSummaryPlaceholder
  | .arr xs =>
    if xs.isEmpty then .ok shortSummaryPlaceholder
    else .error (.otherError "AttributeError: strip")
  | .obj kvs =>
    if kvs.isEmpty then .ok shortSummaryPlaceholder
    else .error (.otherError "AttributeError: strip")

/-- Lines 199–216: `json.loads` on the selected text and the processing
of the decoded value. -/
def tier1Decode (json_text : String) : Except PyError (List String × String) :=
  match jsonLoads json_text with
  | none => .error .jsonDecodeError
  | some (JsonValue.obj kvs) =>
    match iterElems ((pyGet kvs "keywords").getD (JsonValue.arr [])) with
    | .error e => .error e
    | .ok elems =>
      match summaryValue ((pyGet kvs "summary").getD (JsonValue.str "")) with
      | .error e => .error e
      | .ok summary =>
        .ok (pyAppendLoop cleanGood [] (elems.map fun v => pyStrip (pyStr v)),
             pyStrip summary)
  | some _ => .error (.otherError "AttributeError: get")

/-- The body of the `try` block of `_parse_analysis_result`
(lines 190–216).  `.error .jsonDecodeError` is the case routed to
`_manual_parse_result`; every other `.error` is caught by the
`except Exception` clause. -/
def tier1Parse (result_text : String) : Except PyError (List String × String) :=
  match extractJsonBlock result_text with
  | some t => tier1Decode t
  | none => tier1Decode (pyStrip result_text)

/-! ## `_manual_parse_result` — heuristic line-scan tier -/

/-- `re.findall('["](.*?)["]', line)` (the character classes of line 246
contain only the ASCII double quote): non-overlapping quoted substrings,
lazily matched, scanning left to right.  The `Nat` argument is fuel
bounding the scan by the input length. -/
def splitFirstMem (cls : List Char) : List Char → Option (List Char × List Char)
  | [] => none
  | c :: cs =>
    if cls.contains c then some ([], cs)
    else (splitFirstMem cls cs).map fun r => (c :: r.1, r.2)

def findQuotedAux (cls1 cls2 : List Char) : Nat → List Char → List (List Char)
  | 0, _ => []
  | _, [] => []
  | fuel + 1, c :: cs =>
    if cls1.contains c then
      match splitFirstMem cls2 cs with
      | some (content, rest) => content :: findQuotedAux cls1 cls2 fuel rest
      | none => []
    else findQuotedAux cls1 cls2 fuel cs

def findQuoted (s : String) : List String :=
  (findQuotedAux ['"'] ['"'] s.data.length s.data).map String.mk

/-- The character class of line 253:
`re.sub(r'[关键词：:keywords\[\]"]', '', part)`. -/
def kwStripClass : List Char :=
  ['关', '键', '词', '：', ':', 'k', 'e', 'y', 'w', 'o', 'r', 'd', 's', '[', ']', '"']

/-- One iteration of the line loop of `_manual_parse_result`
(lines 238–265), acting on the `(keywords, summary)` state. -/
def manualScanLine (st : List String × String) (rawLine : String) :
    List String × String :=
  let line := pyStrip rawLine
  if line = "" then st
  else if containsSub line "关键词" ∨ containsSub (pyLower line) "keywords" then
    let keyword_match := findQuoted line
    if keyword_match ≠ [] then (st.1 ++ keyword_match, st.2)
    else
      let parts := splitOnSet [',', '，', '、'] line
      (st.1 ++ (parts.filterMap fun part =>
        let clean_part := pyStrip (removeClass kwStripClass part)
        if clean_part ≠ "" ∧ 1 < clean_part.length then some clean_part else none),
       st.2)
  else if containsSub line "总结" ∨ containsSub line "分析" ∨
      containsSub (pyLower line) "summary" then
    if containsSub line "：" ∨ containsSub line ":" then
      (st.1, pyStrip (lastSplit ':' (lastSplit '：' line)))
    else st
  else if 50 < line.length ∧
      (containsSub line "今日" ∨ containsSub line "热点" ∨ containsSub line "新闻") then
    if st.2 = "" then (st.1, line) else st
  else st

/-- The full line scan of `_manual_parse_result` over `text.split('\n')`. -/
def manualScan (text : String) : List String × String :=
  (splitOnChar '\n' text).foldl manualScanLine ([], "")

/-- The value of `clean_keywords` at line 272 (the cleanup loop of
lines 268–272 applied to the scanned keywords). -/
def manualParseKeywords (text : String) : List String :=
  pyAppendLoop cleanGood [] ((manualScan text).1.map pyStrip)

def defaultManualSummary : String :=
  "今日热点新闻内容丰富，涵盖了社会各个层面的关注点。"

/-- The value of `summary` at line 278 (lines 274–276). -/
def manualParseSummary (text : String) : String :=
  let s := (manualScan text).2
  if s = "" then defaultManualSummary else s

/-- Lines 229–278.  The scan and cleanup complete, but the return
expression of line 278 is `clean_keywords[:max_keywords]`, and
`max_keywords` is not bound anywhere in this method's scope (it is a
parameter of `extract_keywords_and_summary` only), so evaluating it
raises `NameError` unconditionally. -/
def _manual_parse_result (text : String) : Except PyError (List String × String) :=
  let _clean_keywords := manualParseKeywords text
  let _summary := manualParseSummary text
  .error PyError.nameError

/-- Lines 188–227.  The `except json.JSONDecodeError` handler calls
`_manual_parse_result`; an exception raised inside that handler is not
caught by the sibling `except Exception` clause (handlers of one `try`
statement only cover its `try` suite), so it propagates. -/
def _parse_analysis_result (result_text : String) :
    Except PyError (List String × String) :=
  match tier1Parse result_text with
  | .ok r => .ok r
  | .error .jsonDecodeError => _manual_parse_result result_text
  | .error _ => .ok ([], analysisFailureSummary)

/-! ## `_apply_keyword_filters` -/

/-- The keep condition of the loop of lines 297–312, with the three
`continue` guards in source order.  `reSearch pattern kw` stands for
`re.search(pattern, kw)` of the external regex engine. -/
def keywordKeep (reSearch : String → String → Bool) (f : FilterRules)
    (kw : String) : Bool :=
  if kw.length < f.min_length.getD 2 ∨ f.max_length.getD 50 < kw.length then false
  else if f.exclude_patterns ≠ [] ∧ f.exclude_patterns.any (fun p => reSearch p kw) then
    false
  else if f.include_patterns ≠ [] ∧ !(f.include_patterns.any fun p => reSearch p kw) then
    false
  else true

/-- Lines 280–315.  `none` models the early returns of lines 283–288
(no scenario, no `topic_extraction` section, or an absent/empty
`keyword_filters` mapping). -/
def _apply_keyword_filters (reSearch : String → String → Bool)
    (keyword_filters : Option FilterRules) (keywords : List String) :
    List String :=
  match keyword_filters with
  | none => keywords
  | some f => keywords.filter (keywordKeep reSearch f)

/-! ## `_extract_simple_keywords` (fallback) -/

def fallbackStopwords : List String :=
  ["的", "了", "在", "和", "与", "或", "但", "是", "有", "被", "将", "已", "正在"]

/-- `re.sub(r'[#@【】\[\]()（）]', ' ', title)` of line 326. -/
def fallbackTitleClean (t : String) : String :=
  blankClass ['#', '@', '【', '】', '[', ']', '(', ')', '（', '）'] t

/-- The guard of lines 331–333 (membership is handled by `pyAppendLoop`). -/
def simpleGood (w : String) : Bool :=
  decide (1 < w.length) && !(fallbackStopwords.contains w)

/-- Lines 317–336. -/
def _extract_simple_keywords (news_list : List NewsItem) : List String :=
  let keywords := news_list.foldl
    (fun acc news =>
      let title := (news.title).getD ""
      let words := pySplitWs (fallbackTitleClean title)
      pyAppendLoop simpleGood acc (words.map pyStrip))
    []
  keywords.take 10

/-! ## `get_search_keywords` -/

/-- Python `str.isdigit()` restricted to ASCII digits (the unicode digit
classes play no role in any analysed input). -/
def pyIsDigit (s : String) : Bool :=
  !(s = "") && s.data.all Char.isDigit

/-- `re.match(r'^[a-zA-Z]+$', keyword)` as a boolean: a non-empty string
of Latin letters. -/
def latinWordMatch (s : String) : Bool :=
  !(s = "") && s.data.all Char.isAlpha

/-- The filter conditions of lines 356–360 (membership handled by
`pyAppendLoop`). -/
def searchGood (k : String) : Bool :=
  decide (1 < k.length) && decide (k.length < 20) && !(pyIsDigit k) &&
    !(latinWordMatch k)

/-- Lines 338–364. -/
def get_search_keywords (keywords : List String) (limit : Int) : List String :=
  let search_keywords := pyAppendLoop searchGood [] (keywords.map pyStrip)
  pySlice search_keywords limit

/-! ## `_build_news_summary` -/

/-- One line of the news digest (lines 128–134): title defaulted to
`无标题`, source read from `source_platform`, then `source`, then `未知`,
`#`/`@` deleted from the title and the result stripped. -/
def newsLine (i : Nat) (news : NewsItem) : String :=
  let title := (news.title).getD "无标题"
  let source := (news.source_platform).getD ((news.source).getD "未知")
  let title := pyStrip (removeClass ['#', '@'] title)
  toString i ++ ". 【" ++ source ++ "】" ++ title

/-- Lines 123–136: items enumerated from 1, joined with newlines. -/
def _build_news_summary (news_list : List NewsItem) : String :=
  String.intercalate "\n" ((news_list.enumFrom 1).map fun p => newsLine p.1 p.2)

/-! ## `extract_keywords_and_summary` -/

def emptyNewsSummary : String := "今日暂无热点新闻"

def fallbackSummary (n : Nat) : String :=
  "今日共收集到 " ++ toString n ++ " 条热点新闻，涵盖多个平台的热门话题。"

/-- The `try` block of lines 94–114: completion call, parse, filter,
truncate.  `llm` is the outcome of the external completion call
(`.error` = the client raised).  Any `.error` reaching the end of this
block is what the `except Exception` clause of line 116 catches. -/
def extractTry (reSearch : String → String → Bool)
    (keyword_filters : Option FilterRules) (llm : Except PyError String)
    (max_keywords : Int) : Except PyError (List String × String) :=
  match llm with
  | .error e => .error e
  | .ok result_text =>
    match _parse_analysis_result result_text with
    | .error e => .error e
    | .ok (keywords, summary) =>
      .ok (pySlice (_apply_keyword_filters reSearch keyword_filters keywords)
             max_keywords,
           summary)

/-- Lines 69–121.  Everything the `try` block can raise — the completion
call itself, `NameError` escaping `_parse_analysis_result`, … — is
caught by `except Exception` and routed to the fallback.  Prompt
construction (lines 84–92) is pure, cannot raise for these inputs and
does not influence the returned pair, so it is not re-modelled here; the
result type records that the operation itself never raises. -/
def extract_keywords_and_summary (reSearch : String → String → Bool)
    (keyword_filters : Option FilterRules) (llm : Except PyError String)
    (news_list : List NewsItem) (max_keywords : Int) :
    Except PyError (List String × String) :=
  if news_list.isEmpty then .ok ([], emptyNewsSummary)
  else
    match extractTry reSearch keyword_filters llm max_keywords with
    | .ok r => .ok r
    | .error _ =>
      .ok (pySlice (_extract_simple_keywords news_list) max_keywords,
           fallbackSummary news_list.length)

/-! ## Specification-side formulations

Order-preserving deduplication of a filtered token stream, written the
way the spec describes the loops, to be compared with the accumulator
loops of the source. -/

/-- The fallback keyword derivation as the spec words it, as a function
of the titles alone: clean each title, split on whitespace, strip the
tokens, drop short and stoplisted ones, deduplicate keeping first
occurrences, cap at 10. -/
def fallbackTokens : List (Option String) → List String
  | [] => []
  | t :: ts =>
    (pySplitWs (fallbackTitleClean (t.getD ""))).map pyStrip ++ fallbackTokens ts

def fallbackKeywordsSpec (titles : List (Option String)) : List String :=
  (dedupKeepFirst [] ((fallbackTokens titles).filter simpleGood)).take 10

/-- The search-keyword selection as the spec words it. -/
def searchKeywordsSpec (keywords : List String) : List String :=
  dedupKeepFirst [] ((keywords.map pyStrip).filter searchGood)

/-! ## Loop lemmas -/

theorem pyAppendLoop_eq_dedup (good : String → Bool) :
    ∀ (ws acc : List String),
      pyAppendLoop good acc ws = dedupKeepFirst acc (ws.filter good) := by
  intro ws
  induction ws with
  | nil => intro acc; rfl
  | cons w ws ih =>
    intro acc
    rw [pyAppendLoop, List.filter_cons]
    by_cases hg : good w = true
    · rw [if_pos hg, dedupKeepFirst]
      by_cases hm : w ∈ acc
      · rw [if_neg (fun hc => hc.2 hm), if_neg (not_not_intro hm), ih]
      · rw [if_pos ⟨hg, hm⟩, if_pos hm, ih]
    · rw [if_neg (fun hc => hg hc.1), if_neg hg, ih]

theorem dedupKeepFirst_sound :
    ∀ (ws acc : List String), acc.Nodup →
      (dedupKeepFirst acc ws).Nodup ∧
        ∀ x ∈ dedupKeepFirst acc ws, x ∈ acc ∨ x ∈ ws := by
  intro ws
  induction ws with
  | nil => intro acc h; exact ⟨h, fun x hx => Or.inl hx⟩
  | cons w ws ih =>
    intro acc hacc
    rw [dedupKeepFirst]
    by_cases hm : w ∈ acc
    · rw [if_neg (by simp [hm])]
      refine ⟨(ih acc hacc).1, fun x hx => ?_⟩
      rcases (ih acc hacc).2 x hx with h | h
      · exact Or.inl h
      · exact Or.inr (List.mem_cons_of_mem _ h)
    · rw [if_pos hm]
      have hacc' : (acc ++ [w]).Nodup := by
        simp [List.nodup_append, hacc, hm]
      refine ⟨(ih _ hacc').1, fun x hx => ?_⟩
      rcases (ih _ hacc').2 x hx with h | h
      · rcases List.mem_append.mp h with h | h
        · exact Or.inl h
        · simp only [List.mem_singleton] at h
          exact Or.inr (h ▸ List.mem_cons_self _ _)
      · exact Or.inr (List.mem_cons_of_mem _ h)

theorem pyAppendLoop_nodup (good : String → Bool) (ws : List String) :
    (pyAppendLoop good [] ws).Nodup := by
  rw [pyAppendLoop_eq_dedup]
  exact (dedupKeepFirst_sound _ [] List.nodup_nil).1

theorem pyAppendLoop_mem_good (good : String → Bool) (ws : List String)
    (x : String) (hx : x ∈ pyAppendLoop good [] ws) : good x = true := by
  rw [pyAppendLoop_eq_dedup] at hx
  rcases (dedupKeepFirst_sound _ [] List.nodup_nil).2 x hx with h | h
  · simp at h
  · exact List.of_mem_filter h

theorem pyAppendLoop_append (good : String → Bool) :
    ∀ (xs ys acc : List String),
      pyAppendLoop good acc (xs ++ ys)
        = pyAppendLoop good (pyAppendLoop good acc xs) ys := by
  intro xs
  induction xs with
  | nil => intro ys acc; rfl
  | cons x xs ih =>
    intro ys acc
    rw [List.cons_append, pyAppendLoop, pyAppendLoop]
    by_cases h : good x ∧ x ∉ acc
    · rw [if_pos h, if_pos h, ih]
    · rw [if_neg h, if_neg h, ih]

theorem pySlice_sublist {α : Type} (xs : List α) (n : Int) :
    (pySlice xs n).Sublist xs := by
  unfold pySlice
  by_cases h : 0 ≤ n
  · rw [if_pos h]; exact List.take_sublist _ _
  · rw [if_neg h]; exact List.take_sublist _ _

/-! ## String helpers -/

theorem string_ne_empty_of_length (s : String) (h : 0 < s.length) : s ≠ "" := by
  intro hc
  rw [hc] at h
  simp [String.length] at h

theorem string_append_ne_empty (a b : String) (h : a ≠ "") : a ++ b ≠ "" := by
  intro hc
  apply h
  have hd : a.data ++ b.data = [] := congrArg String.data hc
  rcases List.append_eq_nil.mp hd with ⟨h1, _⟩
  cases a with
  | mk d =>
    cases h1
    rfl

theorem fallbackSummary_ne_empty (n : Nat) : fallbackSummary n ≠ "" := by
  unfold fallbackSummary
  apply string_append_ne_empty
  apply string_append_ne_empty
  decide

/-! ## Invariants of the parser -/

theorem summaryValue_ok_ne_empty (v : JsonValue) (s : String)
    (h : summaryValue v = .ok s) : pyStrip s ≠ "" := by
  cases v with
  | str t =>
    simp only [summaryValue] at h
    split at h
    · cases h; decide
    case _ hc =>
      cases h
      push_neg at hc
      obtain ⟨-, hlen⟩ := hc
      exact string_ne_empty_of_length _ (by omega)
  | num n =>
    simp only [summaryValue] at h
    split at h
    · cases h; decide
    · cases h
  | bool b =>
    simp only [summaryValue] at h
    split at h
    · cases h
    · cases h; decide
  | null =>
    simp only [summaryValue] at h
    cases h; decide
  | arr xs =>
    simp only [summaryValue] at h
    split at h
    · cases h; decide
    · cases h
  | obj kvs =>
    simp only [summaryValue] at h
    split at h
    · cases h; decide
    · cases h

theorem tier1Decode_ok_inv (t : String) (kws : List String) (s : String)
    (h : tier1Decode t = .ok (kws, s)) :
    s ≠ "" ∧ kws.Nodup ∧ ∀ k ∈ kws, 2 ≤ k.length := by
  unfold tier1Decode at h
  split at h
  · exact absurd h (by simp)
  · split at h
    · exact absurd h (by simp)
    · split at h
      · exact absurd h (by simp)
      case _ summary hsum =>
        rw [Except.ok.injEq, Prod.mk.injEq] at h
        obtain ⟨hk, hs⟩ := h
        subst hk hs
        refine ⟨summaryValue_ok_ne_empty _ _ hsum, pyAppendLoop_nodup _ _, ?_⟩
        intro k hkmem
        have := pyAppendLoop_mem_good _ _ _ hkmem
        unfold cleanGood at this
        simp only [Bool.and_eq_true, decide_eq_true_eq] at this
        omega
  · exact absurd h (by simp)

theorem tier1Parse_ok_inv (t : String) (kws : List String) (s : String)
    (h : tier1Parse t = .ok (kws, s)) :
    s ≠ "" ∧ kws.Nodup ∧ ∀ k ∈ kws, 2 ≤ k.length := by
  unfold tier1Parse at h
  split at h
  case _ u _ => exact tier1Decode_ok_inv u kws s h
  · exact tier1Decode_ok_inv _ kws s h

theorem parse_ok_inv (t : String) (kws : List String) (s : String)
    (h : _parse_analysis_result t = .ok (kws, s)) :
    s ≠ "" ∧ kws.Nodup ∧ ∀ k ∈ kws, 2 ≤ k.length := by
  unfold _parse_analysis_result at h
  split at h
  case _ r heq =>
    cases h
    exact tier1Parse_ok_inv t kws s heq
  case _ heq =>
    unfold _manual_parse_result at h
    exact absurd h (by simp)
  case _ e heq hne =>
    rw [Except.ok.injEq, Prod.mk.injEq] at h
    obtain ⟨hk, hs⟩ := h
    subst hk hs
    exact ⟨by decide, List.nodup_nil, by simp⟩

/-! ## The fallback keyword derivation refines its specification -/

theorem extract_simple_foldl (news : List NewsItem) :
    ∀ acc : List String,
      news.foldl
          (fun acc news =>
            pyAppendLoop simpleGood acc
              ((pySplitWs (fallbackTitleClean ((news.title).getD ""))).map pyStrip))
          acc
        = pyAppendLoop simpleGood acc (fallbackTokens (news.map (·.title))) := by
  induction news with
  | nil => intro acc; rfl
  | cons n rest ih =>
    intro acc
    rw [List.foldl_cons, ih, List.map_cons, fallbackTokens, pyAppendLoop_append]

theorem extract_simple_eq_spec (news : List NewsItem) :
    _extract_simple_keywords news = fallbackKeywordsSpec (news.map (·.title)) := by
  unfold _extract_simple_keywords fallbackKeywordsSpec
  rw [extract_simple_foldl, pyAppendLoop_eq_dedup]

theorem extract_simple_inv (news : List NewsItem) :
    (_extract_simple_keywords news).Nodup ∧
      (_extract_simple_keywords news).length ≤ 10 ∧
      ∀ k ∈ _extract_simple_keywords news, simpleGood k = true := by
  unfold _extract_simple_keywords
  rw [extract_simple_foldl]
  refine ⟨((List.take_sublist _ _).nodup (pyAppendLoop_nodup _ _)), ?_, ?_⟩
  · exact List.length_take_le _ _
  · intro k hk
    exact pyAppendLoop_mem_good _ _ _ ((List.take_sublist _ _).subset hk)

/-! ## Filter lemmas -/

theorem apply_filters_subset (reS : String → String → Bool)
    (kf : Option FilterRules) (ks : List String) :
    _apply_keyword_filters reS kf ks ⊆ ks := by
  cases kf with
  | none => exact fun x h => h
  | some f => exact (List.filter_sublist _).subset

theorem apply_filters_nodup (reS : String → String → Bool)
    (kf : Option FilterRules) (ks : List String) (h : ks.Nodup) :
    (_apply_keyword_filters reS kf ks).Nodup := by
  cases kf with
  | none => exact h
  | some f => exact (List.filter_sublist _).nodup h

/-! ## Invariants across the whole pipeline -/

theorem extractTry_ok_inv (reS : String → String → Bool)
    (kf : Option FilterRules) (llm : Except PyError String) (maxk : Int)
    (kws : List String) (s : String)
    (h : extractTry reS kf llm maxk = .ok (kws, s)) :
    s ≠ "" ∧ kws.Nodup ∧ ∀ k ∈ kws, 2 ≤ k.length := by
  unfold extractTry at h
  split at h
  · exact absurd h (by simp)
  · split at h
    · exact absurd h (by simp)
    case _ keywords summary hp =>
      rw [Except.ok.injEq, Prod.mk.injEq] at h
      obtain ⟨hk, hs⟩ := h
      subst hk hs
      obtain ⟨h1, h2, h3⟩ := parse_ok_inv _ _ _ hp
      refine ⟨h1, ?_, ?_⟩
      · exact (pySlice_sublist _ _).nodup (apply_filters_nodup _ _ _ h2)
      · intro k hk
        exact h3 k (apply_filters_subset _ _ _ ((pySlice_sublist _ _).subset hk))

/-! ## Claim inputs -/

/-- The fenced JSON block of the round-trip property (spec §8):
`keywords = ["A","B","A"]` with a 16-character summary. -/
def roundTripInput : String :=
  "```json\n\x7b\"keywords\": [\"A\", \"B\", \"A\"], \"summary\": \"这是一条不少于十个字符的总结文本\"\x7d\n```"

/-- The same block with two-character keywords `["AA","BB","AA"]`. -/
def roundTripInputLong : String :=
  "```json\n\x7b\"keywords\": [\"AA\", \"BB\", \"AA\"], \"summary\": \"这是一条不少于十个字符的总结文本\"\x7d\n```"

def roundTripSummary : String := "这是一条不少于十个字符的总结文本"

/-- The heuristic-tier input of spec §8: malformed JSON with a
keyword line. -/
def heuristicInput : String := "关键词：人工智能，芯片，新能源"

/-! ## Claims -/

/-- C1: for every well-typed input (news items with optional string
fields, any integer `max_keywords`), for every outcome of the completion
client (including every raised error) and every scenario filter
configuration, `extract_keywords_and_summary` returns a `(keywords,
summary)` pair and never raises. -/
theorem extract_never_raises (reSearch : String → String → Bool)
    (keyword_filters : Option FilterRules) (llm : Except PyError String)
    (news_list : List NewsItem) (max_keywords : Int) :
    ∃ r, extract_keywords_and_summary reSearch keyword_filters llm news_list
            max_keywords = .ok r := by
  unfold extract_keywords_and_summary
  split
  · exact ⟨_, rfl⟩
  · split
    · exact ⟨_, rfl⟩
    · exact ⟨_, rfl⟩

/-- C2 (code bug): the parser is *not* total.  On input `"x"` — not
valid JSON, so the strict tier raises `JSONDecodeError` — the
`except json.JSONDecodeError` handler calls `_manual_parse_result`,
whose `return clean_keywords[:max_keywords]` (line 278) evaluates the
unbound name `max_keywords` and raises `NameError`; the sibling
`except Exception` clause does not catch exceptions raised inside
another handler, so `_parse_analysis_result` raises instead of
returning `([], failureSummary)`. -/
theorem parse_raises_nameError_on_non_json :
    _parse_analysis_result "x" = .error PyError.nameError := rfl

/-- C3 (code bug): on the line `关键词：人工智能，芯片，新能源` the
heuristic tier does compute the claimed keyword list
`["人工智能","芯片","新能源"]` (comma split, markup stripped, order
kept) — the value of `clean_keywords` at line 272 — but the tier then
raises `NameError` at line 278 instead of returning it. -/
theorem manual_tier_computes_but_raises :
    manualParseKeywords heuristicInput = ["人工智能", "芯片", "新能源"] ∧
      _parse_analysis_result heuristicInput = .error PyError.nameError :=
  ⟨rfl, rfl⟩

/-- C4 counterexample: on the round-trip input the parser does *not*
return `(["A","B"], summary)` — the validation of line 209 keeps only
keywords of length `> 1`, so the one-character `"A"` and `"B"` are
dropped. -/
theorem roundTrip_counterexample :
    _parse_analysis_result roundTripInput ≠ .ok (["A", "B"], roundTripSummary) := by
  intro h
  rw [show _parse_analysis_result roundTripInput = .ok ([], roundTripSummary) from rfl]
    at h
  simp at h

/-- C4 (amended): on the round-trip input the parser returns
`([], summary)` — the single-character keywords are removed by the
length-`> 1` validation; with two-character keywords `["AA","BB","AA"]`
it returns `(["AA","BB"], summary)`, the duplicate removed and insertion
order preserved. -/
theorem roundTrip_amended :
    _parse_analysis_result roundTripInput = .ok ([], roundTripSummary) ∧
      _parse_analysis_result roundTripInputLong
        = .ok (["AA", "BB"], roundTripSummary) :=
  ⟨rfl, rfl⟩

/-- C7: on the empty news list the pipeline returns exactly
`([], "今日暂无热点新闻")`, whatever the completion client would have
returned or raised and whatever filters are configured — the quantifiers
over `llm`, `reSearch` and `keyword_filters` record that neither the
prompt nor the client influences this short-circuit. -/
theorem extract_empty_news (reSearch : String → String → Bool)
    (keyword_filters : Option FilterRules) (llm : Except PyError String)
    (max_keywords : Int) :
    extract_keywords_and_summary reSearch keyword_filters llm [] max_keywords
      = .ok ([], "今日暂无热点新闻") := rfl

/-- C5: on every non-empty news list — whatever the completion client
returns or raises, whatever filters are configured and for every
truncation bound — the pipeline returns a pair whose summary is
non-empty and whose keyword sequence has no duplicates and no entry
shorter than 2 characters, on the LLM success path and the fallback path
alike. -/
theorem extract_result_invariants (reSearch : String → String → Bool)
    (keyword_filters : Option FilterRules) (llm : Except PyError String)
    (n : NewsItem) (rest : List NewsItem) (max_keywords : Int) :
    ∃ kws s,
      extract_keywords_and_summary reSearch keyword_filters llm (n :: rest)
          max_keywords = .ok (kws, s) ∧
        s ≠ "" ∧ kws.Nodup ∧ ∀ k ∈ kws, 2 ≤ k.length := by
  unfold extract_keywords_and_summary
  rw [if_neg (by simp)]
  split
  case _ r heq =>
    obtain ⟨kws, s⟩ := r
    obtain ⟨h1, h2, h3⟩ := extractTry_ok_inv _ _ _ _ _ _ heq
    exact ⟨kws, s, rfl, h1, h2, h3⟩
  case _ e heq =>
    refine ⟨_, _, rfl, fallbackSummary_ne_empty _, ?_, ?_⟩
    · exact (pySlice_sublist _ _).nodup (extract_simple_inv (n :: rest)).1
    · intro k hk
      have hg := (extract_simple_inv (n :: rest)).2.2 k
        ((pySlice_sublist _ _).subset hk)
      unfold simpleGood at hg
      simp only [Bool.and_eq_true, decide_eq_true_eq] at hg
      omega

/-- C5 witness: the invariants instantiated at a concrete client outcome
(a non-JSON reply, which routes through the `NameError` of the manual
tier to the fallback path). -/
theorem extract_result_invariants_witness :
    ∃ kws s,
      extract_keywords_and_summary (fun _ _ => false) none (.ok "x")
          [⟨some "AI芯片 大模型", none, none⟩] 100 = .ok (kws, s) ∧
        s ≠ "" ∧ kws.Nodup ∧ ∀ k ∈ kws, 2 ≤ k.length :=
  extract_result_invariants (fun _ _ => false) none (.ok "x")
    ⟨some "AI芯片 大模型", none, none⟩ [] 100

/-- C6 counterexample: the fallback keyword list is *not* always
non-empty.  With one news item that has no `title` key, a raising
client makes `extract` return the empty keyword list together with the
count summary. -/
theorem fallback_counterexample :
    extract_keywords_and_summary (fun _ _ => false) none
        (.error (.otherError "provider down")) [⟨none, none, none⟩] 100
      = .ok ([], "今日共收集到 1 条热点新闻，涵盖多个平台的热门话题。") := rfl

/-- C6 (amended): if the completion client raises any error, the result
is a possibly-empty fallback keyword list of at most 10 entries derived
only from the input titles — bracket and punctuation markers blanked,
split on whitespace, tokens failing `simpleGood` (single-character
tokens and the fixed stoplist) dropped, deduplicated keeping first
occurrences, capped at 10 (`fallbackKeywordsSpec`) — together with the
summary stating the count of input news items. -/
theorem fallback_from_titles (reSearch : String → String → Bool)
    (keyword_filters : Option FilterRules) (e : PyError)
    (n : NewsItem) (rest : List NewsItem) (max_keywords : Int) :
    extract_keywords_and_summary reSearch keyword_filters (.error e)
        (n :: rest) max_keywords
      = .ok (pySlice (fallbackKeywordsSpec ((n :: rest).map (·.title)))
               max_keywords,
             fallbackSummary (n :: rest).length) ∧
      (pySlice (fallbackKeywordsSpec ((n :: rest).map (·.title)))
          max_keywords).length ≤ 10 := by
  constructor
  · unfold extract_keywords_and_summary
    rw [if_neg (by simp)]
    rw [show extractTry reSearch keyword_filters (.error e) max_keywords
          = .error e from rfl]
    rw [extract_simple_eq_spec]
  · calc (pySlice (fallbackKeywordsSpec ((n :: rest).map (·.title)))
            max_keywords).length
        ≤ (fallbackKeywordsSpec ((n :: rest).map (·.title))).length :=
          (pySlice_sublist _ _).length_le
      _ ≤ 10 := List.length_take_le _ _

/-! ## The filter keep-condition, characterised -/

theorem keywordKeep_iff (reS : String → String → Bool) (f : FilterRules)
    (kw : String) :
    keywordKeep reS f kw = true ↔
      (f.min_length.getD 2 ≤ kw.length ∧ kw.length ≤ f.max_length.getD 50 ∧
        (∀ p ∈ f.exclude_patterns, reS p kw = false) ∧
        (f.include_patterns ≠ [] → ∃ p ∈ f.include_patterns, reS p kw = true)) := by
  unfold keywordKeep
  split_ifs with h1 h2 h3
  · simp only [false_iff]
    rintro ⟨ha, hb, -, -⟩
    omega
  · simp only [false_iff]
    rintro ⟨-, -, hexc, -⟩
    obtain ⟨-, hany⟩ := h2
    obtain ⟨p, hp, hr⟩ := List.any_eq_true.mp hany
    rw [hexc p hp] at hr
    cases hr
  · simp only [false_iff]
    rintro ⟨-, -, -, hinc⟩
    obtain ⟨hne, hnone⟩ := h3
    obtain ⟨p, hp, hr⟩ := hinc hne
    rw [Bool.not_eq_true', List.any_eq_false] at hnone
    exact hnone p hp hr
  · simp only [true_iff]
    push_neg at h1
    refine ⟨h1.1, h1.2, ?_, ?_⟩
    · intro p hp
      by_contra hcon
      rw [Bool.not_eq_false] at hcon
      have hne : f.exclude_patterns ≠ [] := by
        intro hnil
        rw [hnil] at hp
        exact (List.not_mem_nil p) hp
      exact h2 ⟨hne, List.any_eq_true.mpr ⟨p, hp, hcon⟩⟩
    · intro hne
      by_contra hcon
      push_neg at hcon
      apply h3
      refine ⟨hne, ?_⟩
      rw [Bool.not_eq_true', List.any_eq_false]
      intro p hp
      rw [Bool.not_eq_true]
      exact Bool.not_eq_true _ ▸ (Bool.eq_false_iff.mpr (hcon p hp))

/-- C8: with no filter rules configured (absent scenario section or
empty mapping, both modelled by `none`) the keyword filter is the
identity; with rules, a keyword is kept if and only if its length lies
in `[min_length, max_length]` (defaulting to 2 and 50 when the keys are
absent), no exclude pattern matches it, and — when include patterns are
configured — at least one include pattern matches it; the relative order
of kept keywords is preserved (the output is a sublist of the input).
`reS p kw` is the external `re.search(p, kw)` substring match. -/
theorem keyword_filters_spec :
    (∀ (reS : String → String → Bool) (kws : List String),
        _apply_keyword_filters reS none kws = kws) ∧
      (∀ (reS : String → String → Bool) (f : FilterRules) (kws : List String)
          (kw : String),
        kw ∈ _apply_keyword_filters reS (some f) kws ↔
          kw ∈ kws ∧ f.min_length.getD 2 ≤ kw.length ∧
            kw.length ≤ f.max_length.getD 50 ∧
            (∀ p ∈ f.exclude_patterns, reS p kw = false) ∧
            (f.include_patterns ≠ [] →
              ∃ p ∈ f.include_patterns, reS p kw = true)) ∧
      ∀ (reS : String → String → Bool) (f : FilterRules) (kws : List String),
        (_apply_keyword_filters reS (some f) kws).Sublist kws := by
  refine ⟨fun _ _ => rfl, ?_, fun reS f kws => List.filter_sublist _⟩
  intro reS f kws kw
  show kw ∈ kws.filter (keywordKeep reS f) ↔ _
  rw [List.mem_filter, keywordKeep_iff]

/-- C8 witness: the characterisation applied at concrete rules — include
patterns configured, keyword kept through all three checks. -/
theorem keyword_filters_spec_witness :
    "热点新闻" ∈ _apply_keyword_filters (fun p kw => containsSub kw p)
        (some ⟨["新闻"], ["广告"], none, none⟩) ["热点新闻", "a", "广告位"] :=
  (keyword_filters_spec.2.1 (fun p kw => containsSub kw p)
      ⟨["新闻"], ["广告"], none, none⟩ ["热点新闻", "a", "广告位"] "热点新闻").mpr
    ⟨by decide, by decide, by decide, by decide,
     fun _ => ⟨"新闻", by decide, by decide⟩⟩

/-- C9: `get_search_keywords` keeps — in order, deduplicated keeping
first occurrences, capped by the slice bound — exactly the stripped
entries passing `searchGood`; `searchGood` holds exactly of entries
whose length is strictly between 1 and 20 that are neither pure digit
strings nor pure Latin-alphabetic strings; and on
`["42","hello","中文词","a"]` with limit 10 the result is `["中文词"]`. -/
theorem search_keywords_spec :
    (∀ (kws : List String) (limit : Int),
        get_search_keywords kws limit = pySlice (searchKeywordsSpec kws) limit) ∧
      (∀ k : String,
        searchGood k = true ↔
          1 < k.length ∧ k.length < 20 ∧
            ¬(k ≠ "" ∧ ∀ c ∈ k.data, c.isDigit = true) ∧
            ¬(k ≠ "" ∧ ∀ c ∈ k.data, c.isAlpha = true)) ∧
      get_search_keywords ["42", "hello", "中文词", "a"] 10 = ["中文词"] := by
  refine ⟨?_, ?_, rfl⟩
  · intro kws limit
    unfold get_search_keywords searchKeywordsSpec
    rw [pyAppendLoop_eq_dedup]
  · intro k
    unfold searchGood pyIsDigit latinWordMatch
    simp only [Bool.and_eq_true, decide_eq_true_eq, Bool.not_eq_true',
      Bool.and_eq_false_iff, decide_eq_false_iff_not, not_not,
      List.all_eq_true, List.all_eq_false]
    constructor
    · rintro ⟨⟨⟨h1, h2⟩, h3⟩, h4⟩
      refine ⟨h1, h2, ?_, ?_⟩
      · rintro ⟨hne, hall⟩
        rcases h3 with h | ⟨c, hc, hd⟩
        · exact hne (by simpa using h)
        · exact hd (hall c hc)
      · rintro ⟨hne, hall⟩
        rcases h4 with h | ⟨c, hc, hd⟩
        · exact hne (by simpa using h)
        · exact hd (hall c hc)
    · rintro ⟨h1, h2, h3, h4⟩
      have hne : ¬k = "" := fun hk => by
        rw [hk] at h1
        exact absurd h1 (by decide)
      refine ⟨⟨⟨h1, h2⟩, ?_⟩, ?_⟩
      · by_contra hcon
        push_neg at hcon
        exact h3 ⟨hne, fun c hc => hcon.2 c hc⟩
      · by_contra hcon
        push_neg at hcon
        exact h4 ⟨hne, fun c hc => hcon.2 c hc⟩

/-- C9 witness: the characterisation applied at the concrete list. -/
theorem search_keywords_spec_witness :
    get_search_keywords ["42", "hello", "中文词", "a"] 10
      = pySlice (searchKeywordsSpec ["42", "hello", "中文词", "a"]) 10 :=
  search_keywords_spec.1 ["42", "hello", "中文词", "a"] 10

/-! ## The prompt-line renderer -/

theorem mem_dropLeadWs (c : Char) : ∀ l : List Char, c ∈ dropLeadWs l → c ∈ l := by
  intro l
  induction l with
  | nil => intro h; exact h
  | cons x xs ih =>
    intro h
    rw [dropLeadWs] at h
    split at h
    · exact List.mem_cons_of_mem _ (ih h)
    · exact h

theorem mem_pyStrip (c : Char) (s : String) (h : c ∈ (pyStrip s).data) :
    c ∈ s.data := by
  unfold pyStrip at h
  have h1 := mem_dropLeadWs c _ h
  rw [List.mem_reverse] at h1
  have h2 := mem_dropLeadWs c _ h1
  rwa [List.mem_reverse] at h2

/-- C10: the prompt-line renderer is total on items with missing keys —
an item without a `title` key renders with the placeholder `无标题`, the
source is `source_platform` when present, else `source`, else the
default `未知` — and `#`/`@` never survive into the rendered title. -/
theorem news_line_spec :
    (∀ (i : Nat) (sp so : Option String),
        newsLine i ⟨none, sp, so⟩
          = toString i ++ ". 【" ++ sp.getD (so.getD "未知") ++ "】" ++ "无标题") ∧
      (∀ (i : Nat) (t so : Option String) (s : String),
        newsLine i ⟨t, some s, so⟩
          = toString i ++ ". 【" ++ s ++ "】"
              ++ pyStrip (removeClass ['#', '@'] (t.getD "无标题"))) ∧
      (∀ (i : Nat) (t : Option String) (s : String),
        newsLine i ⟨t, none, some s⟩
          = toString i ++ ". 【" ++ s ++ "】"
              ++ pyStrip (removeClass ['#', '@'] (t.getD "无标题"))) ∧
      (∀ (i : Nat) (t : Option String),
        newsLine i ⟨t, none, none⟩
          = toString i ++ ". 【" ++ "未知" ++ "】"
              ++ pyStrip (removeClass ['#', '@'] (t.getD "无标题"))) ∧
      ∀ (t : String) (c : Char),
        c ∈ (pyStrip (removeClass ['#', '@'] t)).data → c ≠ '#' ∧ c ≠ '@' := by
  refine ⟨fun i sp so => rfl, fun i t so s => rfl, fun i t s => rfl,
    fun i t => rfl, ?_⟩
  intro t c hc
  have h1 : c ∈ (removeClass ['#', '@'] t).data := mem_pyStrip c _ hc
  have h2 := List.of_mem_filter h1
  simpa using h2

/-- C10 witness: a title-less item rendered with both defaults, and a
surviving character of a cleaned title. -/
theorem news_line_spec_witness :
    newsLine 2 ⟨none, none, some "微博"⟩ = "2. 【微博】无标题" ∧
      ('文' ≠ '#' ∧ '文' ≠ '@') :=
  ⟨by rw [news_line_spec.1 2 none (some "微博")]; rfl,
   news_line_spec.2.2.2.2 "#中文@" '文' (by decide)⟩

end TopicExtractor
